import Mathlib

/-!
Verification of the vinyl-scrobbler scrobble orchestration pipeline.

The definitions below are shallow embeddings of the Google Cloud Function
source (the core implementation in the repository: `generateApiSignature`,
`getAlbumTracks`, `findAlbumByRfid`, `scrobbleTracks`, `helloPubSub`).
JavaScript objects used as flat string-keyed parameter mappings are modelled
as association lists with pairwise-distinct keys; external calls (Firestore
query, Last.fm HTTP requests) are modelled by explicit outcome values fed to
the embedded control flow; thrown exceptions are modelled with `Except`.
-/

set_option maxRecDepth 8000

namespace VinylScrobbler

/-! ### MD5 (the `md5` npm package: MD5 over the UTF-8 bytes, lowercase hex) -/

/-- 2^32, the modulus for 32-bit machine arithmetic. -/
def M32 : Nat := 4294967296

/-- 32-bit addition. -/
def add32 (a b : Nat) : Nat := (a + b) % M32

/-- 32-bit bitwise complement (for inputs below 2^32). -/
def not32 (a : Nat) : Nat := Nat.xor a 4294967295

/-- 32-bit left rotation by `c` (for `0 < c < 32`, inputs below 2^32). -/
def rotl32 (x c : Nat) : Nat :=
  (Nat.lor (Nat.shiftLeft x c) (Nat.shiftRight x (32 - c))) % M32

/-- MD5 per-round left-rotation amounts. -/
def sTable : List Nat :=
  [7, 12, 17, 22, 7, 12, 17, 22, 7, 12, 17, 22, 7, 12, 17, 22,
   5, 9, 14, 20, 5, 9, 14, 20, 5, 9, 14, 20, 5, 9, 14, 20,
   4, 11, 16, 23, 4, 11, 16, 23, 4, 11, 16, 23, 4, 11, 16, 23,
   6, 10, 15, 21, 6, 10, 15, 21, 6, 10, 15, 21, 6, 10, 15, 21]

/-- MD5 per-round additive constants, `floor(abs(sin(i+1)) * 2^32)`. -/
def kTable : List Nat :=
  [3614090360, 3905402710, 606105819, 3250441966, 4118548399, 1200080426, 2821735955, 4249261313,
   1770035416, 2336552879, 4294925233, 2304563134, 1804603682, 4254626195, 2792965006, 1236535329,
   4129170786, 3225465664, 643717713, 3921069994, 3593408605, 38016083, 3634488961, 3889429448,
   568446438, 3275163606, 4107603335, 1163531501, 2850285829, 4243563512, 1735328473, 2368359562,
   4294588738, 2272392833, 1839030562, 4259657740, 2763975236, 1272893353, 4139469664, 3200236656,
   681279174, 3936430074, 3572445317, 76029189, 3654602809, 3873151461, 530742520, 3299628645,
   4096336452, 1126891415, 2878612391, 4237533241, 1700485571, 2399980690, 4293915773, 2240044497,
   1873313359, 4264355552, 2734768916, 1309151649, 4149444226, 3174756917, 718787259, 3951481745]

/-- Little-endian 64-bit encoding of the bit length appended by MD5 padding. -/
def lenBytes (len : Nat) : List Nat :=
  (List.range 8).map (fun i => (Nat.shiftRight ((8 * len) % 18446744073709551616) (8 * i)) % 256)

/-- MD5 padding for a message of `len` bytes: `0x80`, zeros to 56 mod 64, bit length. -/
def mdPadding (len : Nat) : List Nat :=
  128 :: List.replicate ((119 - len % 64) % 64) 0 ++ lenBytes len

/-- The `g`-th little-endian 32-bit word of a 64-byte chunk. -/
def chunkWord (chunk : List Nat) (g : Nat) : Nat :=
  chunk.getD (4 * g) 0 + chunk.getD (4 * g + 1) 0 * 256 +
    chunk.getD (4 * g + 2) 0 * 65536 + chunk.getD (4 * g + 3) 0 * 16777216

/-- One of the 64 MD5 operations on the state `(a, b, c, d)`. -/
def md5Step (chunk : List Nat) (st : Nat × Nat × Nat × Nat) (i : Nat) :
    Nat × Nat × Nat × Nat :=
  let a := st.1; let b := st.2.1; let c := st.2.2.1; let d := st.2.2.2
  let fg : Nat × Nat :=
    if i < 16 then (Nat.lor (Nat.land b c) (Nat.land (not32 b) d), i)
    else if i < 32 then (Nat.lor (Nat.land d b) (Nat.land (not32 d) c), (5 * i + 1) % 16)
    else if i < 48 then (Nat.xor (Nat.xor b c) d, (3 * i + 5) % 16)
    else (Nat.xor c (Nat.lor b (not32 d)), (7 * i) % 16)
  let f := add32 (add32 (add32 fg.1 a) (kTable.getD i 0)) (chunkWord chunk fg.2)
  (d, add32 b (rotl32 f (sTable.getD i 0)), b, c)

/-- Process one 64-byte chunk of the padded message. -/
def md5Block (st : Nat × Nat × Nat × Nat) (chunk : List Nat) : Nat × Nat × Nat × Nat :=
  let r := (List.range 64).foldl (md5Step chunk) st
  (add32 st.1 r.1, add32 st.2.1 r.2.1, add32 st.2.2.1 r.2.2.1, add32 st.2.2.2 r.2.2.2)

/-- The four MD5 state words of a byte message. -/
def md5Words (msg : List Nat) : Nat × Nat × Nat × Nat :=
  let padded := msg ++ mdPadding msg.length
  let blocks := (List.range (padded.length / 64)).map (fun i => (padded.drop (64 * i)).take 64)
  blocks.foldl md5Block (1732584193, 4023233417, 2562383102, 271733878)

/-- Lowercase hexadecimal digit. -/
def hexDigit (n : Nat) : Char :=
  if n < 10 then Char.ofNat (48 + n) else Char.ofNat (87 + n)

/-- A byte as two lowercase hex characters. -/
def byteHex (b : Nat) : String :=
  String.mk [hexDigit (b / 16), hexDigit (b % 16)]

/-- A 32-bit word rendered as four little-endian hex-encoded bytes. -/
def wordHex (w : Nat) : String :=
  byteHex (w % 256) ++ byteHex (w / 256 % 256) ++ byteHex (w / 65536 % 256) ++
    byteHex (w / 16777216 % 256)

/-- UTF-8 encoding of a character. -/
def utf8Bytes (c : Char) : List Nat :=
  let n := c.toNat
  if n < 128 then [n]
  else if n < 2048 then
    [192 + Nat.shiftRight n 6, 128 + Nat.land n 63]
  else if n < 65536 then
    [224 + Nat.shiftRight n 12, 128 + Nat.land (Nat.shiftRight n 6) 63, 128 + Nat.land n 63]
  else
    [240 + Nat.shiftRight n 18, 128 + Nat.land (Nat.shiftRight n 12) 63,
     128 + Nat.land (Nat.shiftRight n 6) 63, 128 + Nat.land n 63]

/-- UTF-8 bytes of a string. -/
def strBytes (s : String) : List Nat := s.data.flatMap utf8Bytes

/-- MD5 digest of a string as a 32-character lowercase hex string, as computed by
the `md5` npm package used by the source. -/
def md5 (s : String) : String :=
  let w := md5Words (strBytes s)
  wordHex w.1 ++ wordHex w.2.1 ++ wordHex w.2.2.1 ++ wordHex w.2.2.2

example : md5 "" = "d41d8cd98f00b204e9800998ecf8427e" := by decide

example : md5 "abc" = "900150983cd24fb0d6963f7d28e17f72" := by decide

/-! ### Signature Generator (`generateApiSignature` in the core cloud function)

A JavaScript object used as a flat parameter mapping is modelled as an
association list of string key/value pairs with pairwise-distinct keys.
`Object.keys(...).sort()` sorts the key strings ascending in the default
ordinal string order, modelled by `charsLe` below (lexicographic comparison of
the character codes) via `List.insertionSort`. -/

/-- Ascending ordinal (lexicographic, by character code) comparison of two
character sequences: the order JavaScript's default `Array.prototype.sort`
applies to strings. -/
def charsLe : List Char → List Char → Bool
  | [], _ => true
  | _ :: _, [] => false
  | a :: as, b :: bs =>
    if a.toNat < b.toNat then true
    else if b.toNat < a.toNat then false
    else charsLe as bs

/-- Ordinal order on strings. -/
def strLe (a b : String) : Prop := charsLe a.data b.data = true

instance : DecidableRel strLe :=
  fun a b => instDecidableEqBool (charsLe a.data b.data) true

/-- Order on parameter entries by key, used to sort a parameter list. -/
def keyLe (a b : String × String) : Prop := strLe a.1 b.1

instance : DecidableRel keyLe :=
  fun a b => inferInstanceAs (Decidable (strLe a.1 b.1))

theorem charsLe_total : ∀ as bs, charsLe as bs = true ∨ charsLe bs as = true
  | [], _ => Or.inl rfl
  | _ :: _, [] => Or.inr rfl
  | a :: as, b :: bs => by
    simp only [charsLe]
    rcases Nat.lt_trichotomy a.toNat b.toNat with h | h | h
    · left
      simp [h]
    · have h1 : ¬ a.toNat < b.toNat := by omega
      have h2 : ¬ b.toNat < a.toNat := by omega
      simpa [h1, h2] using charsLe_total as bs
    · right
      simp [h]

theorem charsLe_trans :
    ∀ as bs cs, charsLe as bs = true → charsLe bs cs = true → charsLe as cs = true
  | [], _, _, _, _ => rfl
  | _ :: _, [], _, h1, _ => by simp [charsLe] at h1
  | _ :: _, _ :: _, [], _, h2 => by simp [charsLe] at h2
  | a :: as, b :: bs, c :: cs, h1, h2 => by
    simp only [charsLe] at h1 h2 ⊢
    rcases Nat.lt_trichotomy a.toNat b.toNat with hab | hab | hab
    · rcases Nat.lt_trichotomy b.toNat c.toNat with hbc | hbc | hbc
      · simp [Nat.lt_trans hab hbc]
      · simp [show a.toNat < c.toNat by omega]
      · simp [show ¬ b.toNat < c.toNat by omega, hbc] at h2
    · rcases Nat.lt_trichotomy b.toNat c.toNat with hbc | hbc | hbc
      · simp [show a.toNat < c.toNat by omega]
      · have g1 : ¬ a.toNat < b.toNat := by omega
        have g2 : ¬ b.toNat < a.toNat := by omega
        have g3 : ¬ b.toNat < c.toNat := by omega
        have g4 : ¬ c.toNat < b.toNat := by omega
        have g5 : ¬ a.toNat < c.toNat := by omega
        have g6 : ¬ c.toNat < a.toNat := by omega
        simp only [g1, g2, if_false, if_neg] at h1
        simp only [g3, g4, if_false, if_neg] at h2
        simpa [g5, g6] using charsLe_trans as bs cs h1 h2
      · simp [show ¬ b.toNat < c.toNat by omega, hbc] at h2
    · simp [show ¬ a.toNat < b.toNat by omega, hab] at h1

theorem charsLe_antisymm :
    ∀ as bs, charsLe as bs = true → charsLe bs as = true → as = bs
  | [], [], _, _ => rfl
  | [], _ :: _, _, h2 => by simp [charsLe] at h2
  | _ :: _, [], h1, _ => by simp [charsLe] at h1
  | a :: as, b :: bs, h1, h2 => by
    simp only [charsLe] at h1 h2
    rcases Nat.lt_trichotomy a.toNat b.toNat with hab | hab | hab
    · simp [show ¬ b.toNat < a.toNat by omega, hab] at h2
    · have g1 : ¬ a.toNat < b.toNat := by omega
      have g2 : ¬ b.toNat < a.toNat := by omega
      simp only [g1, g2, if_false, if_neg] at h1 h2
      have hc : a = b := Char.ext (UInt32.ext hab)
      rw [hc, charsLe_antisymm as bs h1 h2]
    · simp [show ¬ a.toNat < b.toNat by omega, hab] at h1

instance : IsTotal String strLe := ⟨fun a b => charsLe_total a.data b.data⟩

instance : IsTrans String strLe := ⟨fun a b c => charsLe_trans a.data b.data c.data⟩

instance : IsAntisymm String strLe :=
  ⟨fun a b h1 h2 => by
    cases a with
    | mk as =>
      cases b with
      | mk bs => exact congrArg String.mk (charsLe_antisymm as bs h1 h2)⟩

instance : IsTotal (String × String) keyLe := ⟨fun a b => total_of strLe a.1 b.1⟩

instance : IsTrans (String × String) keyLe :=
  ⟨fun _ _ _ h1 h2 => Trans.trans (r := strLe) (s := strLe) h1 h2⟩

/-- Embedding of the source:
`const paramsForSig = { ...params }; delete paramsForSig.format;`
`const sortedKeys = Object.keys(paramsForSig).sort();`
`signatureString += key + paramsForSig[key]` for each sorted key, then
`signatureString += LASTFM_API_SECRET; return md5(signatureString)`. -/
def generateApiSignature (params : List (String × String)) (secret : String) : String :=
  let paramsForSig := params.filter (fun kv => kv.1 ≠ "format")
  let sortedKeys := List.insertionSort strLe (paramsForSig.map Prod.fst)
  let signatureString :=
    sortedKeys.foldl (fun acc key => acc ++ key ++ ((paramsForSig.lookup key).getD "")) ""
  md5 (signatureString ++ secret)

/-- Modelled from the spec wording (§4.4): remove the `format` key, sort the
remaining entries by key in ascending ordinal (byte-wise) order, concatenate
`key + value` for each in that order with no separators, append the shared
secret, and take the MD5 digest of the resulting string. -/
def apiSignatureSpec (params : List (String × String)) (secret : String) : String :=
  let remaining := params.filter (fun kv => kv.1 ≠ "format")
  let sorted := List.insertionSort keyLe remaining
  md5 (String.join (sorted.map (fun kv => kv.1 ++ kv.2)) ++ secret)

/-- The parameter mapping of the spec's concrete signature test case. -/
def specCaseParams : List (String × String) :=
  [("method", "album info"), ("artist", "The Cure"), ("album", "Disintegration"),
   ("api_key", "test_api_key"), ("sk", "test_session_key")]

/-- The same mapping with the method string the repository's CI unit test
actually uses (`album.getinfo`). -/
def ciCaseParams : List (String × String) :=
  [("method", "album.getinfo"), ("artist", "The Cure"), ("album", "Disintegration"),
   ("api_key", "test_api_key"), ("sk", "test_session_key")]

/-! ### Tracklist Fetcher (`getAlbumTracks`)

The Last.fm `album.getinfo` HTTP call is modelled by its outcome: either a
transport error (the `catch` path) or a response body.  Per the API protocol
a response body is either an error object (`error` code and `message`) or a
payload whose optional `album.tracks.track` chain holds the track data,
which is either a single track object or a list of track objects. -/

/-- A track object; the pipeline only consumes its `name` field. -/
structure Track where
  name : String
deriving DecidableEq

/-- `response.data.album.tracks.track`: single object or list. -/
inductive TrackField where
  | single (t : Track)
  | list (ts : List Track)
deriving DecidableEq

/-- `response.data.album.tracks`, with optional `track` field. -/
structure TracksObj where
  track : Option TrackField
deriving DecidableEq

/-- `response.data.album`, with optional `tracks` field. -/
structure AlbumObj where
  tracks : Option TracksObj
deriving DecidableEq

/-- The JSON body of an `album.getinfo` response: an error object, or a
payload with an optional `album` object. -/
inductive ResponseData where
  | apiError (code : Nat) (message : String)
  | payload (album : Option AlbumObj)
deriving DecidableEq

/-- Outcome of the HTTP GET: a transport error (rejected promise) or a
response carrying a body. -/
inductive FetchOutcome where
  | transportError
  | response (data : ResponseData)
deriving DecidableEq

/-- The optional chain `response.data?.album?.tracks?.track`; on an error
body there is no `album` field, so the chain is `undefined` (`none`). -/
def albumTrackField : ResponseData → Option TrackField
  | .apiError _ _ => none
  | .payload album => (album.bind (fun a => a.tracks)).bind (fun t => t.track)

/-- Embedding of the core `getAlbumTracks`:
`const tracks = response.data?.album?.tracks?.track;`
`if (!tracks) return [];`
`return Array.isArray(tracks) ? tracks : [tracks];`
and `return []` in the `catch` branch. -/
def getAlbumTracks : FetchOutcome → List Track
  | .transportError => []
  | .response d =>
    match albumTrackField d with
    | none => []
    | some (.single t) => [t]
    | some (.list ts) => ts

/-- Embedding of the `getAlbumTracks` variant that checks
`response.data.error || !response.data.album || !response.data.album.tracks
|| !response.data.album.tracks.track` before normalizing. -/
def getAlbumTracksChecked : FetchOutcome → List Track
  | .transportError => []
  | .response (.apiError _ _) => []
  | .response (.payload none) => []
  | .response (.payload (some a)) =>
    match a.tracks with
    | none => []
    | some tObj =>
      match tObj.track with
      | none => []
      | some (.single t) => [t]
      | some (.list ts) => ts

/-! ### Album Resolver (`findAlbumByRfid`)

The Firestore query
`collectionGroup('albums').where('rfid','==',uid).limit(1).get()`
is modelled by its outcome: a snapshot (list of matching documents, at
most one due to `limit(1)`, but modelled as a list) or a rejected promise
carrying a gRPC error `code` and `details` string. -/

/-- A Firestore document: identifier plus stored fields. -/
structure FsDoc where
  id : String
  data : List (String × String)
deriving DecidableEq

/-- Outcome of the Firestore query. -/
inductive QueryResult where
  | success (docs : List FsDoc)
  | failure (code : Nat) (details : String)
deriving DecidableEq

/-- Errors thrown by the Album Resolver: either the explicitly constructed
missing-index error (`new Error(helpfulMessage, { cause: error })`) or the
original store error re-thrown unchanged. -/
inductive ResolverError where
  | helpfulIndexError (message : String) (causeCode : Nat) (causeDetails : String)
  | storeError (code : Nat) (details : String)
deriving DecidableEq

/-- The fixed text preceding the original diagnostic detail in the
missing-index error message. -/
def indexMsgHead : String :=
  "A Firestore index is required for this query. Please create a composite index for the \x27albums\x27 collection group on the \x27rfid\x27 field. Original error: \""

/-- `helpfulMessage` from the source, embedding the original `error.details`
verbatim between the fixed head text and a closing quote. -/
def helpfulMessage (details : String) : String :=
  indexMsgHead ++ details ++ "\""

/-- Evaluation of the object literal `{ id: doc.id, ...doc.data() }`:
start from the `id` entry and spread the stored fields over it, a later
entry overriding an existing key in place. -/
def objInsert (o : List (String × String)) (kv : String × String) :
    List (String × String) :=
  if kv.1 ∈ o.map Prod.fst then
    o.map (fun x => if x.1 = kv.1 then (x.1, kv.2) else x)
  else o ++ [kv]

/-- `{ id: doc.id, ...doc.data() }`. -/
def mergeIdAndData (d : FsDoc) : List (String × String) :=
  d.data.foldl objInsert [("id", d.id)]

/-- Embedding of the core `findAlbumByRfid`: `null` (`none`) for an empty
snapshot, the merged object for the first matching document, the helpful
re-raised error for a `FAILED_PRECONDITION` (code 9) failure, and the
original error re-thrown unchanged otherwise. -/
def findAlbumByRfid : QueryResult → Except ResolverError (Option (List (String × String)))
  | .success [] => .ok none
  | .success (d :: _) => .ok (some (mergeIdAndData d))
  | .failure code details =>
    if code = 9 then .error (.helpfulIndexError (helpfulMessage details) code details)
    else .error (.storeError code details)

/-! ### Scrobble Submitter timestamps (`scrobbleTracks`)

`const now = Math.floor(Date.now() / 1000);`
`const timestamps = tracks.map((_, i) => now - (tracks.length - i - 1) * 180);`
JavaScript numbers here are integers, modelled with `Int`. -/

/-- The synthesized timestamp list, one per track. -/
def scrobbleTimestamps (tracks : List Track) (now : Int) : List Int :=
  (List.range tracks.length).map
    (fun i : Nat => now - ((tracks.length : Int) - ((i : Nat) : Int) - 1) * 180)

/-! ### Pipeline Orchestrator (`helloPubSub`)

The cloud event payload carries an optional base64 string; decoding is an
external primitive (`Buffer.from(_, 'base64').toString()`), taken as a
function parameter.  The three downstream collaborators are given by their
outcomes: the Firestore query result, the catalog fetch outcome as a function
of the resolved artist and album, and the submitter outcome as a function of
the track list, artist and album.  An error thrown by the Submitter is
modelled separately from a Resolver error. -/

/-- `String.prototype.trim`: strip leading and trailing whitespace. -/
def jsTrim (s : String) : String :=
  String.mk (((s.data.dropWhile Char.isWhitespace).reverse.dropWhile
    Char.isWhitespace).reverse)

/-- An error thrown by `scrobbleTracks` (transport failure or an API-level
error response turned into a thrown `Error`). -/
inductive ScrobbleError where
  | failure (message : String)
deriving DecidableEq

/-- Embedding of the core `helloPubSub` control flow.  Returns `.ok` when the
invocation completes normally (including the silent aborts) and `.error`
when an exception propagates out of the function. -/
def helloPubSub (base64Uid : Option String) (decode : String → String)
    (store : QueryResult)
    (catalog : String → String → FetchOutcome)
    (submit : List Track → String → String → Except ScrobbleError Unit) :
    Except (ResolverError ⊕ ScrobbleError) Unit :=
  match base64Uid with
  | none => .ok ()
  | some b =>
    if b = "" then .ok ()
    else
      let rfidUid := jsTrim (decode b)
      if rfidUid = "" then .ok ()
      else
        match findAlbumByRfid store with
        | .error e => .error (.inl e)
        | .ok none => .ok ()
        | .ok (some albumDetails) =>
          let artist := (albumDetails.lookup "artist").getD ""
          let album := (albumDetails.lookup "album").getD ""
          let tracks := getAlbumTracks (catalog artist album)
          if tracks.length = 0 then .ok ()
          else
            match submit tracks artist album with
            | .error e => .error (.inr e)
            | .ok () => .ok ()

/-! ### Helper lemmas -/

theorem scrobbleTimestamps_getElem? (tracks : List Track) (now : Int) (i : Nat)
    (hi : i < tracks.length) :
    (scrobbleTimestamps tracks now)[i]? =
      some (now - ((tracks.length : Int) - (i : Int) - 1) * 180) := by
  unfold scrobbleTimestamps
  rw [List.getElem?_map, List.getElem?_range hi]
  rfl

theorem foldl_objInsert_of_fresh :
    ∀ (l acc : List (String × String)),
      (∀ kv ∈ l, kv.1 ∉ acc.map Prod.fst) → (l.map Prod.fst).Nodup →
      l.foldl objInsert acc = acc ++ l
  | [], acc, _, _ => by simp
  | kv :: rest, acc, hfresh, hnd => by
    have h1 : kv.1 ∉ acc.map Prod.fst := hfresh kv (List.mem_cons_self kv rest)
    have step : objInsert acc kv = acc ++ [kv] := by
      unfold objInsert
      rw [if_neg h1]
    have hfresh2 : ∀ kv2 ∈ rest, kv2.1 ∉ (acc ++ [kv]).map Prod.fst := by
      intro kv2 h2
      simp only [List.map_append, List.mem_append, List.map_cons, List.map_nil,
        List.mem_singleton]
      push_neg
      refine ⟨hfresh kv2 (List.mem_cons_of_mem kv h2), ?_⟩
      intro heq
      exact (List.nodup_cons.mp hnd).1 (heq ▸ List.mem_map_of_mem Prod.fst h2)
    rw [List.foldl_cons, step,
      foldl_objInsert_of_fresh rest (acc ++ [kv]) hfresh2 ((List.nodup_cons.mp hnd).2)]
    simp

/-! ### Claims about the Scrobble Submitter's timestamps -/

/-- Claim C4: for every non-empty track list of length `n` and invocation time
`now`, the Scrobble Submitter assigns `timestamp[i] = now - (n - 1 - i) * 180`;
the last track's timestamp equals `now`, each adjacent pair differs by exactly
180 seconds (the later track 180 greater), and the list is strictly
increasing. -/
theorem scrobbleTracks_timestamps (tracks : List Track) (now : Int)
    (h : tracks ≠ []) :
    (∀ i, i < tracks.length →
      (scrobbleTimestamps tracks now)[i]? =
        some (now - ((tracks.length : Int) - 1 - (i : Int)) * 180)) ∧
    (scrobbleTimestamps tracks now)[tracks.length - 1]? = some now ∧
    (∀ i, i + 1 < tracks.length →
      (scrobbleTimestamps tracks now)[i + 1]? =
        ((scrobbleTimestamps tracks now)[i]?).map (· + 180)) ∧
    (scrobbleTimestamps tracks now).Pairwise (· < ·) := by
  have hn : 0 < tracks.length := List.length_pos.mpr h
  refine ⟨?_, ?_, ?_, ?_⟩
  · intro i hi
    rw [scrobbleTimestamps_getElem? tracks now i hi]
    congr 1
    ring
  · rw [scrobbleTimestamps_getElem? tracks now (tracks.length - 1) (by omega)]
    have hc : ((tracks.length - 1 : Nat) : Int) = (tracks.length : Int) - 1 := by
      omega
    rw [hc]
    congr 1
    ring
  · intro i hi
    rw [scrobbleTimestamps_getElem? tracks now (i + 1) hi,
      scrobbleTimestamps_getElem? tracks now i (by omega)]
    simp only [Option.map_some']
    congr 1
    push_cast
    ring
  · rw [List.pairwise_iff_getElem]
    intro i j hi hj hij
    have hlen : (scrobbleTimestamps tracks now).length = tracks.length := by
      simp [scrobbleTimestamps]
    have hi2 : i < tracks.length := hlen ▸ hi
    have hj2 : j < tracks.length := hlen ▸ hj
    have ei := scrobbleTimestamps_getElem? tracks now i hi2
    have ej := scrobbleTimestamps_getElem? tracks now j hj2
    rw [List.getElem?_eq_getElem hi] at ei
    rw [List.getElem?_eq_getElem hj] at ej
    rw [Option.some.injEq] at ei ej
    rw [ei, ej]
    omega

/-- Witness for claim C4 at a concrete two-track list. -/
theorem scrobbleTracks_timestamps_witness :
    (scrobbleTimestamps [Track.mk "Plainsong", Track.mk "Pictures of You"] 1000)[1]? =
      some 1000 :=
  (scrobbleTracks_timestamps [Track.mk "Plainsong", Track.mk "Pictures of You"] 1000
    (by decide)).2.1

/-- Claim C10: every synthesized timestamp is at most the invocation time
`now`, and the earliest (first) timestamp is exactly
`now - 180 * (n - 1)`. -/
theorem scrobbleTimestamps_no_future (tracks : List Track) (now : Int)
    (h : tracks ≠ []) :
    (∀ t ∈ scrobbleTimestamps tracks now, t ≤ now) ∧
    (scrobbleTimestamps tracks now)[0]? =
      some (now - 180 * ((tracks.length : Int) - 1)) := by
  have hn : 0 < tracks.length := List.length_pos.mpr h
  constructor
  · intro t ht
    simp only [scrobbleTimestamps, List.mem_map, List.mem_range] at ht
    obtain ⟨i, hi, rfl⟩ := ht
    have hle : (0 : Int) ≤ ((tracks.length : Int) - (i : Int) - 1) * 180 :=
      mul_nonneg (by omega) (by norm_num)
    omega
  · rw [scrobbleTimestamps_getElem? tracks now 0 hn]
    congr 1
    ring

/-- Witness for claim C10 at a concrete two-track list. -/
theorem scrobbleTimestamps_no_future_witness :
    (scrobbleTimestamps [Track.mk "Plainsong", Track.mk "Pictures of You"] 1000)[0]? =
      some 820 :=
  (scrobbleTimestamps_no_future [Track.mk "Plainsong", Track.mk "Pictures of You"] 1000
    (by decide)).2

/-! ### Claims about the Tracklist Fetcher -/

/-- Claim C5: the Tracklist Fetcher normalizes both response shapes to a
list: a single track object yields the one-element list containing it, and a
track list is returned unchanged in catalog order; in particular the
two-track response "Plainsong" / "Pictures of You" yields the two-element
list with "Plainsong" first. -/
theorem getAlbumTracks_normalizes :
    (∀ t, getAlbumTracks (.response (.payload (some ⟨some ⟨some (.single t)⟩⟩))) = [t]) ∧
    (∀ ts, getAlbumTracks (.response (.payload (some ⟨some ⟨some (.list ts)⟩⟩))) = ts) ∧
    getAlbumTracks (.response (.payload (some ⟨some ⟨some (.list
        [Track.mk "Plainsong", Track.mk "Pictures of You"])⟩⟩))) =
      [Track.mk "Plainsong", Track.mk "Pictures of You"] :=
  ⟨fun _ => rfl, fun _ => rfl, rfl⟩

/-- Claim C6: the Tracklist Fetcher is a total function (it never raises) and
returns the empty list on a transport error, on a catalog-reported error
body, and whenever the nested track data is missing — in both embedded
variants of `getAlbumTracks`. -/
theorem getAlbumTracks_empty_on_failure :
    (getAlbumTracks .transportError = [] ∧ getAlbumTracksChecked .transportError = []) ∧
    (∀ c m, getAlbumTracks (.response (.apiError c m)) = [] ∧
      getAlbumTracksChecked (.response (.apiError c m)) = []) ∧
    (∀ d, albumTrackField d = none →
      getAlbumTracks (.response d) = [] ∧ getAlbumTracksChecked (.response d) = []) := by
  refine ⟨⟨rfl, rfl⟩, fun c m => ⟨rfl, rfl⟩, fun d hd => ⟨?_, ?_⟩⟩
  · simp [getAlbumTracks, hd]
  · cases d with
    | apiError c m => rfl
    | payload album =>
      cases album with
      | none => rfl
      | some a =>
        cases ha : a.tracks with
        | none => simp [getAlbumTracksChecked, ha]
        | some tObj =>
          simp only [albumTrackField, ha, Option.bind_some, Option.some_bind] at hd
          simp [getAlbumTracksChecked, ha, hd]

/-- Witness for claim C6: a response with no album object yields `[]`. -/
theorem getAlbumTracks_empty_on_failure_witness :
    getAlbumTracks (.response (.payload none)) = [] ∧
    getAlbumTracksChecked (.response (.payload none)) = [] :=
  getAlbumTracks_empty_on_failure.2.2 (.payload none) rfl

/-! ### Claims about the Album Resolver -/

/-- Claim C7: the Album Resolver returns the `null` sentinel (`.ok none`,
not an exception) on an empty snapshot, and for a single matching document
returns the object merging the document identifier (field `id`) with all of
the stored fields. -/
theorem findAlbumByRfid_sentinel_and_merge :
    findAlbumByRfid (.success []) = .ok none ∧
    (∀ d : FsDoc, (d.data.map Prod.fst).Nodup → "id" ∉ d.data.map Prod.fst →
      findAlbumByRfid (.success [d]) = .ok (some (("id", d.id) :: d.data))) := by
  refine ⟨rfl, fun d hnd hid => ?_⟩
  have hm : mergeIdAndData d = [("id", d.id)] ++ d.data := by
    unfold mergeIdAndData
    refine foldl_objInsert_of_fresh d.data [("id", d.id)] ?_ hnd
    intro kv hkv
    simp only [List.map_cons, List.map_nil, List.mem_singleton]
    intro heq
    exact hid (heq ▸ List.mem_map_of_mem Prod.fst hkv)
  simp [findAlbumByRfid, hm]

/-- Witness for claim C7 at the repository test's document. -/
theorem findAlbumByRfid_sentinel_and_merge_witness :
    findAlbumByRfid (.success
        [⟨"doc1", [("artist", "Test Artist"), ("album", "Test Album")]⟩]) =
      .ok (some [("id", "doc1"), ("artist", "Test Artist"), ("album", "Test Album")]) :=
  findAlbumByRfid_sentinel_and_merge.2
    ⟨"doc1", [("artist", "Test Artist"), ("album", "Test Album")]⟩ (by decide) (by decide)

/-- Claim C8: a store failure with code 9 (`FAILED_PRECONDITION`, missing
index) is re-raised as the distinct `helpfulIndexError` whose message embeds
the original diagnostic detail verbatim between fixed text; every other
store error propagates unchanged; and the two error forms are distinct. -/
theorem findAlbumByRfid_index_error (code : Nat) (details : String) :
    findAlbumByRfid (.failure 9 details) =
      .error (.helpfulIndexError (indexMsgHead ++ details ++ "\"") 9 details) ∧
    (code ≠ 9 → findAlbumByRfid (.failure code details) =
      .error (.storeError code details)) ∧
    (∀ m c1 d1 c2 d2,
      ResolverError.helpfulIndexError m c1 d1 ≠ ResolverError.storeError c2 d2) := by
  refine ⟨rfl, fun hc => ?_, fun m c1 d1 c2 d2 => by simp⟩
  simp [findAlbumByRfid, hc]

/-- Witness for claim C8: a non-precondition store error passes through. -/
theorem findAlbumByRfid_index_error_witness :
    findAlbumByRfid (.failure 13 "internal") = .error (.storeError 13 "internal") :=
  (findAlbumByRfid_index_error 13 "internal").2.1 (by decide)

/-! ### Claim about the Pipeline Orchestrator -/

/-- Claim C9: when the invocation reaches the Album Resolver and the Resolver
throws, or reaches the Scrobble Submitter and the Submitter throws, the
exception propagates out of `helloPubSub` (the result is `.error`, the same
exception, rather than a normal completion). -/
theorem helloPubSub_propagates (b : String) (decode : String → String)
    (store : QueryResult) (catalog : String → String → FetchOutcome)
    (submit : List Track → String → String → Except ScrobbleError Unit)
    (hb : b ≠ "") (hr : jsTrim (decode b) ≠ "") :
    (∀ e, findAlbumByRfid store = .error e →
      helloPubSub (some b) decode store catalog submit = .error (.inl e)) ∧
    (∀ obj e, findAlbumByRfid store = .ok (some obj) →
      getAlbumTracks
          (catalog ((obj.lookup "artist").getD "") ((obj.lookup "album").getD "")) ≠ [] →
      submit
          (getAlbumTracks
            (catalog ((obj.lookup "artist").getD "") ((obj.lookup "album").getD "")))
          ((obj.lookup "artist").getD "") ((obj.lookup "album").getD "") = .error e →
      helloPubSub (some b) decode store catalog submit = .error (.inr e)) := by
  constructor
  · intro e he
    simp [helloPubSub, hb, hr, he]
  · intro obj e hres htr hsub
    simp [helloPubSub, hb, hr, hres, List.length_eq_zero, htr, hsub]

/-- Witness for claim C9: a missing-index Resolver error propagates out. -/
theorem helloPubSub_propagates_witness :
    helloPubSub (some "QUJD") (fun _ => "ABC123") (.failure 9 "need index")
      (fun _ _ => .transportError) (fun _ _ _ => .ok ()) =
      .error (.inl (.helpfulIndexError (helpfulMessage "need index") 9 "need index")) :=
  (helloPubSub_propagates "QUJD" (fun _ => "ABC123") (.failure 9 "need index")
      (fun _ _ => .transportError) (fun _ _ _ => .ok ()) (by decide) (by decide)).1
    _ rfl

/-! ### Helper lemmas for the Signature Generator claims -/

theorem map_fst_orderedInsert (kv : String × String) :
    ∀ l : List (String × String),
      (List.orderedInsert keyLe kv l).map Prod.fst =
        List.orderedInsert strLe kv.1 (l.map Prod.fst)
  | [] => rfl
  | x :: xs => by
    simp only [List.orderedInsert, List.map_cons]
    by_cases h : keyLe kv x
    · have h2 : strLe kv.1 x.1 := h
      rw [if_pos h, if_pos h2]
      simp
    · have h2 : ¬ strLe kv.1 x.1 := h
      rw [if_neg h, if_neg h2]
      simp only [List.map_cons]
      rw [map_fst_orderedInsert kv xs]

theorem map_fst_insertionSort :
    ∀ l : List (String × String),
      (List.insertionSort keyLe l).map Prod.fst =
        List.insertionSort strLe (l.map Prod.fst)
  | [] => rfl
  | x :: xs => by
    simp only [List.insertionSort, List.map_cons]
    rw [← map_fst_insertionSort xs, map_fst_orderedInsert]

theorem lookup_eq_some_of_mem_nodup :
    ∀ (ps : List (String × String)) (k v : String),
      (ps.map Prod.fst).Nodup → (k, v) ∈ ps → ps.lookup k = some v
  | [], _, _, _, hmem => absurd hmem (List.not_mem_nil _)
  | (k2, v2) :: rest, k, v, hnd, hmem => by
    rcases List.mem_cons.mp hmem with heq | hmem2
    · rw [Prod.mk.injEq] at heq
      obtain ⟨rfl, rfl⟩ := heq
      simp [List.lookup]
    · simp only [List.map_cons, List.nodup_cons] at hnd
      have hk : k ≠ k2 := by
        rintro rfl
        exact hnd.1 (List.mem_map_of_mem Prod.fst hmem2)
      have hbeq : (k == k2) = false := beq_eq_false_iff_ne.mpr hk
      simp only [List.lookup, hbeq]
      exact lookup_eq_some_of_mem_nodup rest k v hnd.2 hmem2

theorem foldl_keys_lookup :
    ∀ (l ps : List (String × String)) (acc : String),
      (∀ kv ∈ l, ps.lookup kv.1 = some kv.2) →
      List.foldl (fun acc key => acc ++ key ++ ((ps.lookup key).getD "")) acc
          (l.map Prod.fst) =
        List.foldl (fun acc kv => acc ++ kv.1 ++ kv.2) acc l
  | [], _, _, _ => rfl
  | kv :: rest, ps, acc, h => by
    simp only [List.map_cons, List.foldl_cons]
    rw [h kv (List.mem_cons_self kv rest)]
    simp only [Option.getD_some]
    exact foldl_keys_lookup rest ps _ (fun kv2 h2 => h kv2 (List.mem_cons_of_mem kv h2))

theorem foldl_append_join :
    ∀ (l : List (String × String)) (acc : String),
      List.foldl (fun acc kv => acc ++ kv.1 ++ kv.2) acc l =
        acc ++ String.join (l.map (fun kv => kv.1 ++ kv.2))
  | [], acc => by
    apply String.ext
    simp [String.join]
  | kv :: rest, acc => by
    simp only [List.map_cons, List.foldl_cons]
    rw [foldl_append_join rest (acc ++ kv.1 ++ kv.2)]
    apply String.ext
    simp

theorem generateApiSignature_eq_spec (p : List (String × String)) (s : String)
    (hnd : ((p.filter (fun kv => kv.1 ≠ "format")).map Prod.fst).Nodup) :
    generateApiSignature p s = apiSignatureSpec p s := by
  simp only [generateApiSignature, apiSignatureSpec]
  rw [← map_fst_insertionSort]
  rw [foldl_keys_lookup (List.insertionSort keyLe
      (p.filter (fun kv => kv.1 ≠ "format"))) _ ""
    (fun kv hkv => lookup_eq_some_of_mem_nodup _ kv.1 kv.2 hnd
      ((List.mem_insertionSort keyLe).mp hkv))]
  rw [foldl_append_join, String.empty_append]

theorem sorted_key_unique :
    ∀ (l1 l2 : List (String × String)), l1.Sorted keyLe → l2.Sorted keyLe →
      l1.Perm l2 → (l1.map Prod.fst).Nodup → l1 = l2
  | [], l2, _, _, hp, _ => (hp.symm.eq_nil).symm
  | a :: t1, l2, hs1, hs2, hp, hnd => by
    cases l2 with
    | nil => exact absurd hp.eq_nil (by simp)
    | cons b t2 =>
      obtain ⟨ha1, hs1t⟩ := List.sorted_cons.mp hs1
      obtain ⟨hb1, hs2t⟩ := List.sorted_cons.mp hs2
      simp only [List.map_cons, List.nodup_cons] at hnd
      have hab : a = b := by
        have haIn : a ∈ b :: t2 := hp.subset (List.mem_cons_self a t1)
        have hbIn : b ∈ a :: t1 := hp.symm.subset (List.mem_cons_self b t2)
        rcases List.mem_cons.mp haIn with h | haT2
        · exact h
        rcases List.mem_cons.mp hbIn with h | hbT1
        · exact h.symm
        have hkey : a.1 = b.1 :=
          antisymm (show strLe a.1 b.1 from ha1 b hbT1)
            (show strLe b.1 a.1 from hb1 a haT2)
        exfalso
        apply hnd.1
        rw [hkey]
        exact List.mem_map_of_mem Prod.fst hbT1
      subst hab
      have hp2 : t1.Perm t2 := hp.cons_inv
      rw [sorted_key_unique t1 t2 hs1t hs2t hp2 hnd.2]

/-! ### Claims about the Signature Generator -/

/-- Claim C1, counterexample: on the spec's stated parameter mapping (method
"album info", The Cure / Disintegration, test api key and session key) with
shared secret "test_api_secret", the Signature Generator does NOT return the
digest the spec quotes. -/
theorem generateApiSignature_concrete_ne :
    generateApiSignature specCaseParams "test_api_secret" ≠
      "5195769657259070980b733794079e46" := by decide

/-- Claim C1, amended: on the spec's stated mapping and secret the digest is
"17936a92c1be8d2ab2403958e571f3c4"; the digest the spec quotes,
"5195769657259070980b733794079e46", is produced for the method string
"album.getinfo" with the appended secret being the literal string
"undefined" — which is what the repository's CI unit test computes, since
`LASTFM_API_SECRET` is unset when the module is loaded there and JavaScript
concatenates `undefined` as "undefined". -/
theorem generateApiSignature_concrete :
    generateApiSignature specCaseParams "test_api_secret" =
      "17936a92c1be8d2ab2403958e571f3c4" ∧
    generateApiSignature ciCaseParams "undefined" =
      "5195769657259070980b733794079e46" :=
  ⟨by decide, by decide⟩

/-- Claim C2: for every flat string-keyed parameter mapping (distinct keys)
and secret, the Signature Generator equals the spec's reference definition;
adding a `format` entry never changes the digest, and removing all `format`
entries never changes the digest. -/
theorem generateApiSignature_matches_spec (p : List (String × String)) (s : String)
    (hnd : (p.map Prod.fst).Nodup) :
    generateApiSignature p s = apiSignatureSpec p s ∧
    (∀ v, generateApiSignature (("format", v) :: p) s = generateApiSignature p s) ∧
    generateApiSignature (p.filter (fun kv => kv.1 ≠ "format")) s =
      generateApiSignature p s := by
  have hsub : List.Sublist ((p.filter (fun kv => kv.1 ≠ "format")).map Prod.fst)
      (p.map Prod.fst) :=
    (List.filter_sublist p).map Prod.fst
  have hndf : ((p.filter (fun kv => kv.1 ≠ "format")).map Prod.fst).Nodup :=
    hnd.sublist hsub
  refine ⟨generateApiSignature_eq_spec p s hndf, fun v => ?_, ?_⟩
  · simp only [generateApiSignature, List.filter_cons]
    norm_num
  · simp only [generateApiSignature, List.filter_filter]
    norm_num

/-- Witness for claim C2 at a concrete parameter mapping. -/
theorem generateApiSignature_matches_spec_witness :
    generateApiSignature [("sk", "key1"), ("api_key", "key2"), ("format", "json")] "sec" =
      apiSignatureSpec [("sk", "key1"), ("api_key", "key2"), ("format", "json")] "sec" :=
  (generateApiSignature_matches_spec
    [("sk", "key1"), ("api_key", "key2"), ("format", "json")] "sec" (by decide)).1

/-- Claim C3: the Signature Generator is deterministic and order-independent:
two parameter mappings with the same key-value pairs in different orders
yield the same digest. -/
theorem generateApiSignature_order_independent (p q : List (String × String))
    (s : String) (hnd : (p.map Prod.fst).Nodup) (hperm : p.Perm q) :
    generateApiSignature p s = generateApiSignature q s := by
  have hndfp : ((p.filter (fun kv => kv.1 ≠ "format")).map Prod.fst).Nodup :=
    hnd.sublist ((List.filter_sublist p).map Prod.fst)
  have hndq : (q.map Prod.fst).Nodup := ((hperm.map Prod.fst).nodup_iff).mp hnd
  have hndfq : ((q.filter (fun kv => kv.1 ≠ "format")).map Prod.fst).Nodup :=
    hndq.sublist ((List.filter_sublist q).map Prod.fst)
  rw [generateApiSignature_eq_spec p s hndfp, generateApiSignature_eq_spec q s hndfq]
  have hpf : (p.filter (fun kv => kv.1 ≠ "format")).Perm
      (q.filter (fun kv => kv.1 ≠ "format")) := hperm.filter _
  have hsorted : List.insertionSort keyLe (p.filter (fun kv => kv.1 ≠ "format")) =
      List.insertionSort keyLe (q.filter (fun kv => kv.1 ≠ "format")) := by
    apply sorted_key_unique
    · exact List.sorted_insertionSort keyLe _
    · exact List.sorted_insertionSort keyLe _
    · exact ((List.perm_insertionSort keyLe _).trans hpf).trans
        (List.perm_insertionSort keyLe _).symm
    · exact (((List.perm_insertionSort keyLe _).map Prod.fst).nodup_iff).mpr hndfp
  simp only [apiSignatureSpec, hsorted]

/-- Witness for claim C3 at a concrete two-entry mapping. -/
theorem generateApiSignature_order_independent_witness :
    generateApiSignature [("b", "2"), ("a", "1")] "s" =
      generateApiSignature [("a", "1"), ("b", "2")] "s" :=
  generateApiSignature_order_independent [("b", "2"), ("a", "1")]
    [("a", "1"), ("b", "2")] "s" (by decide) (List.Perm.swap ("a", "1") ("b", "2") [])

end VinylScrobbler
